import Mathlib

set_option autoImplicit false

/-!
Shallow embedding of the dispatch core of the obsidian-telegram-bot plugin
(`src/main.ts`, class `TelegramBotAdapter`): handler registries, the chain
loop with its OR-accumulated `processed_before` flag, the MIME classifier,
the reply formatter and the file-materialization path pipeline.
-/

/-- `HandlerResult` from `src/main.ts`: `{ processed: boolean; answer: string | null }`.
`answer = none` models `null`. -/
structure HandlerResult where
  processed : Bool
  answer : Option String
deriving DecidableEq

/-- Outcome of awaiting a handler: a returned result, or a thrown exception
(modelled by its message). -/
abbrev HandlerOutcome := Except String HandlerResult

/-- An entry of a handler chain: the stored callable plus the owner label `unit`
(`{ handler: ..., unit: string }` in `src/main.ts`).  The event payload type `ι`
is `Unit` for command handlers (they receive only the flag), `String` (the
message text) for text handlers, and `TFileH × Option String` (resolved file
and optional caption) for file handlers. -/
structure GEntry (ι : Type) where
  handler : ι → Bool → HandlerOutcome
  unit : String

/-- The escape set of `esc` (src/main.ts line 186): the regex character class
`_*[]()~`>#+-=|{}.!` (backquote and the two braces written via their codes). -/
def escChars : List Char :=
  ['_', '*', '[', ']', '(', ')', '~', Char.ofNat 96, '>', '#', '+', '-', '=', '|',
   Char.ofNat 123, Char.ofNat 125, '.', '!']

/-- Character-list version of `esc`: every character of the escape set is
replaced by a backslash followed by the character itself; all other
characters are kept unchanged. -/
def escList : List Char → List Char
  | [] => []
  | c :: cs => (if c ∈ escChars then ['\\', c] else [c]) ++ escList cs

/-- `esc` (src/main.ts 185-187): `text.replace(/[_*[\]()~...]/g, '\\$&')` —
a global single-character replacement. -/
def esc (text : String) : String := String.mk (escList text.data)

/-- Reply composition used in every chain (src/main.ts 249, 269, 354):
`*${esc(unit)}:*\n${esc(answer)}`. -/
def formatReply (unit answer : String) : String :=
  "*" ++ esc unit ++ ":*\n" ++ esc answer

/-- JavaScript string truthiness for `string | null | undefined` values
(`if (s)`): `null`/`undefined` and `""` are falsy. -/
def strTruthy : Option String → Bool
  | none => false
  | some s => if s = "" then false else true

/-- The replies sent for one handler result (src/main.ts 248-252):
`if (reply.answer) ctx.reply(...)` — sent only when `answer` is truthy,
so `null` and the empty string both produce no reply. -/
def replyFor (unit : String) (r : HandlerResult) : List String :=
  match r.answer with
  | some a => if a = "" then [] else [formatReply unit a]
  | none => []

/-- Record of one handler invocation: owner label, the `processed_before` flag
it received, and the outcome it produced. -/
structure Invocation where
  unit : String
  flag : Bool
  result : HandlerOutcome

/-- Observable behaviour of processing one event: the handler invocations in
order and the outbound reply texts in order. -/
structure Trace where
  invocations : List Invocation
  replies : List String

def emptyTrace : Trace := ⟨[], []⟩

/-- The chain loop shared by the command, text and file dispatchers
(src/main.ts 243-253, 263-275, 348-358): each handler is awaited with the
current `processed_before`, the flag is then OR-updated with the returned
`processed`, and a truthy `answer` is sent as one formatted reply.  A thrown
exception aborts the loop and propagates to the per-event `catch`.  Returns
the trace together with either the final accumulated flag or the exception. -/
def runChain {ι : Type} (x : ι) : List (GEntry ι) → Bool → Trace × Except String Bool
  | [], pb => (emptyTrace, Except.ok pb)
  | e :: rest, pb =>
    match e.handler x pb with
    | Except.error msg => (⟨[⟨e.unit, pb, Except.error msg⟩], []⟩, Except.error msg)
    | Except.ok r =>
      let t := runChain x rest (pb || r.processed)
      (⟨⟨e.unit, pb, Except.ok r⟩ :: t.1.invocations, replyFor e.unit r ++ t.1.replies⟩, t.2)

/-- Lookup in the insertion-ordered `Map` registries of `TelegramBotAdapter`
(`_command_handlers`, `_file_handlers`), modelled as association lists with
unique keys. -/
def regGet {α : Type} : List (String × List α) → String → Option (List α)
  | [], _ => none
  | (k, l) :: rest, key => if k = key then some l else regGet rest key

/-- The registration step of `addCommandHandler` / `addFileHandler`
(src/main.ts 366-373, 379-393): if the key is present, push the entry onto its
list; otherwise set the key to a fresh one-element list. -/
def regAdd {α : Type} : List (String × List α) → String → α → List (String × List α)
  | [], key, e => [(key, [e])]
  | (k, l) :: rest, key, e =>
    if k = key then (k, l ++ [e]) :: rest else (k, l) :: regAdd rest key e

/-- An obsidian `TFile` handle, identified by its vault path
(`vault.getFileByPath` returns the file stored at that path). -/
structure TFileH where
  path : String
deriving DecidableEq

/-- A media payload as far as the adapter inspects it: its optional
`mime_type` field. -/
structure MediaInfo where
  mime_type : Option String
deriving DecidableEq

/-- The fields of a Telegram `Message` inspected by `getFileMimeType`
(src/main.ts 189-207).  `photo` and `video_note` carry no `mime_type` the
adapter reads, so only their presence is modelled. -/
structure Msg where
  document : Option MediaInfo
  animation : Option MediaInfo
  audio : Option MediaInfo
  photo : Option Unit
  video : Option MediaInfo
  voice : Option MediaInfo
  video_note : Option Unit
deriving DecidableEq

/-- `getFileMimeType` (src/main.ts 189-207), translated branch for branch:
an `if/else if` cascade over the payload kinds. -/
def getFileMimeType (msg : Msg) : Option String :=
  match msg.document with
  | some d => d.mime_type
  | none =>
  match msg.animation with
  | some a => a.mime_type
  | none =>
  match msg.audio with
  | some a => a.mime_type
  | none =>
  match msg.photo with
  | some _ => some "image/jpeg"
  | none =>
  match msg.video with
  | some v => v.mime_type
  | none =>
  match msg.voice with
  | some v => v.mime_type
  | none =>
  match msg.video_note with
  | some _ => some "video/mp4"
  | none => none

/-- The payload given to a file handler: the resolved obsidian file and the
optional caption (`handler(obsidian_file, processed_before, caption)`). -/
abbrev FileInput := TFileH × Option String

/-- The registries and configuration of `TelegramBotAdapter` that the event
handlers read. -/
structure Adapter where
  chat_id : String
  command_handlers : List (String × List (GEntry Unit))
  text_handlers : List (GEntry String)
  file_handlers : List (String × List (GEntry FileInput))

/-- The generic reply sent by every per-event `catch` block
(src/main.ts 257, 333, 361): `ctx.reply('❌ Internal error')`. -/
def internalError : String := "❌ Internal error"

/-- Per-event `catch`: replies already sent remain, and one generic
internal-error reply is appended when the chain threw. -/
def withCatch (t : Trace × Except String Bool) : Trace :=
  match t.2 with
  | Except.ok _ => t.1
  | Except.error _ => ⟨t.1.invocations, t.1.replies ++ [internalError]⟩

/-- JavaScript `String.prototype.slice(n)` for `n ≥ 0`: drop the first `n`
units, modelled character-wise. -/
def strDrop (s : String) (n : Nat) : String := String.mk (s.data.drop n)

/-- JavaScript `String.prototype.length`, modelled character-wise. -/
def strLen (s : String) : Nat := s.data.length

/-- The `::bot_command` event handler (src/main.ts 225-259).  `text` is
`ctx.message?.text`; `cmd = text?.slice(1)`; a falsy `cmd` (missing text or
bare marker) returns early, as does an absent chain for the key `cmd`. -/
def dispatchCommand (ad : Adapter) (event_chat : String) (text : Option String) : Trace :=
  if event_chat = ad.chat_id then
    match text.map (fun t => strDrop t 1) with
    | none => emptyTrace
    | some cmd =>
      if cmd = "" then emptyTrace
      else
        match regGet ad.command_handlers cmd with
        | none => emptyTrace
        | some items => withCatch (runChain () items false)
  else emptyTrace

/-- The `message:text` event handler (src/main.ts 337-363). -/
def dispatchText (ad : Adapter) (event_chat : String) (text : String) : Trace :=
  if event_chat = ad.chat_id then
    if ad.text_handlers.length = 0 then emptyTrace
    else withCatch (runChain text ad.text_handlers false)
  else emptyTrace

/-- The `message:file` event handler (src/main.ts 261-335).  `materialize` is
the outcome of the `getFile` / `download` / `getFileByPath` sequence
(lines 304-319): `Except.ok` carries the resolved obsidian file, `Except.error`
models any throw in those steps (caught by the event boundary).  Both registry
lookups and the no-handler early return happen before materialization.  With a
specific chain present, it runs first from flag `false`; its final flag then
starts the wildcard chain; a throw inside either chain aborts the event. -/
def dispatchFile (ad : Adapter) (event_chat : String) (msg : Option Msg)
    (caption : Option String) (materialize : Except String TFileH) : Trace :=
  if event_chat = ad.chat_id then
    match msg with
    | none => emptyTrace
    | some m =>
      match getFileMimeType m with
      | none => emptyTrace
      | some mime =>
        if mime = "" then emptyTrace
        else
          match regGet ad.file_handlers mime, regGet ad.file_handlers "" with
          | none, none => emptyTrace
          | specific, wildcard =>
            match materialize with
            | Except.error _ => ⟨[], [internalError]⟩
            | Except.ok f =>
              match specific with
              | none =>
                match wildcard with
                | none => emptyTrace
                | some l2 => withCatch (runChain (f, caption) l2 false)
              | some l1 =>
                match runChain (f, caption) l1 false with
                | (t1, Except.error _) =>
                  ⟨t1.invocations, t1.replies ++ [internalError]⟩
                | (t1, Except.ok pb) =>
                  match wildcard with
                  | none => t1
                  | some l2 =>
                    let t2 := runChain (f, caption) l2 pb
                    withCatch
                      (⟨t1.invocations ++ t2.1.invocations, t1.replies ++ t2.1.replies⟩, t2.2)
  else emptyTrace

/-- One inbound event, as seen by the three registered grammY handlers. -/
inductive Event where
  | cmd (chat : String) (text : Option String)
  | txt (chat : String) (text : String)
  | file (chat : String) (msg : Option Msg) (caption : Option String)
         (materialize : Except String TFileH)

/-- The stringified `ctx.chatId` of an event. -/
def eventChat : Event → String
  | Event.cmd c _ => c
  | Event.txt c _ => c
  | Event.file c _ _ _ => c

/-- Dispatch of one event by the adapter. -/
def dispatchEvent (ad : Adapter) : Event → Trace
  | Event.cmd c t => dispatchCommand ad c t
  | Event.txt c t => dispatchText ad c t
  | Event.file c m cap mat => dispatchFile ad c m cap mat

/-- Successive events are dispatched against the same adapter: event
processing reads the registries and never mutates them. -/
def processEvents (ad : Adapter) (evs : List Event) : List Trace :=
  evs.map (dispatchEvent ad)

/-- `addCommandHandler` (src/main.ts 366-373). -/
def addCommandHandler (ad : Adapter) (cmd : String) (e : GEntry Unit) : Adapter :=
  { ad with command_handlers := regAdd ad.command_handlers cmd e }

/-- `addTextHandler` (src/main.ts 375-377): push onto the single list. -/
def addTextHandler (ad : Adapter) (e : GEntry String) : Adapter :=
  { ad with text_handlers := ad.text_handlers ++ [e] }

/-- `addFileHandler` (src/main.ts 379-393): a missing (or empty, by JS
truthiness) `mime_type` argument registers under the wildcard key `''`. -/
def addFileHandler (ad : Adapter) (e : GEntry FileInput) (mime_type : Option String) : Adapter :=
  { ad with file_handlers :=
      regAdd ad.file_handlers (match mime_type with | none => "" | some m => m) e }

/-- `replace(/\//g, '-')` applied to the remote `file_path` (src/main.ts 308). -/
def replaceSlashes (s : String) : String :=
  String.mk (s.data.map fun c => if c = '/' then '-' else c)

/-- `replace(/\\/g, '/')` applied to the vault-relative path (src/main.ts 314). -/
def replaceBackslashes (s : String) : String :=
  String.mk (s.data.map fun c => if c = '\\' then '/' else c)

/-- The local filename (src/main.ts 308):
`moment().format('YYYY-MM-DD-HH-mm-ss-') + file.file_path?.replace(/\//g, '-')`.
`ts` is the formatted timestamp prefix (same second ⇒ same prefix); a missing
`file_path` concatenates as the string `"undefined"` in JavaScript. -/
def localFileName (ts : String) (file_path : Option String) : String :=
  ts ++ (match file_path with
         | some p => replaceSlashes p
         | none => "undefined")

/-- `path.join` on two clean segments. -/
def pathJoin (a b : String) : String :=
  if a = "" then b else if b = "" then a else a ++ "/" ++ b

/-- The destination passed to `file.download` (src/main.ts 313):
`path.join(vault_path, download_path, file_name)`. -/
def downloadDest (vault dl name : String) : String := pathJoin (pathJoin vault dl) name

/-- `path_in_vault` (src/main.ts 314):
`download_path.slice(vault_path.length + 1).replace(/\\/g, '/')`. -/
def pathInVault (vault dest : String) : String :=
  replaceBackslashes (strDrop dest (strLen vault + 1))

/-- `vault.getFileByPath` (src/main.ts 315): the vault index is modelled as the
list of paths it contains; lookup returns the handle at that path. -/
def getFileByPath (vault_index : List String) (p : String) : Option TFileH :=
  if p ∈ vault_index then some ⟨p⟩ else none

/-- The `processed` field reported by an invocation (`false` for a throw,
which reports nothing). -/
def procOf (inv : Invocation) : Bool :=
  match inv.result with
  | Except.ok r => r.processed
  | Except.error _ => false

/-- The replies attributable to one invocation. -/
def invReplies (inv : Invocation) : List String :=
  match inv.result with
  | Except.ok r => replyFor inv.unit r
  | Except.error _ => []

/-- Sample command handler that claims the event and replies. -/
def entryA : GEntry Unit := ⟨fun _ _ => Except.ok ⟨true, some "done"⟩, "A"⟩

/-- Sample command handler that neither claims the event nor replies. -/
def entryB : GEntry Unit := ⟨fun _ _ => Except.ok ⟨false, none⟩, "B"⟩

/-- Sample command handler that throws. -/
def entryThrow : GEntry Unit := ⟨fun _ _ => Except.error "boom", "T"⟩

/-- Sample handler returning a non-null but empty answer. -/
def entryEmptyAnswer : GEntry Unit := ⟨fun _ _ => Except.ok ⟨false, some ""⟩, "owner"⟩

/-- Sample two-entry chain: the first handler claims the event, the second not. -/
def sampleChain : List (GEntry Unit) := [entryA, entryB]

/-- Sample file handler for a specific MIME type, claiming the event. -/
def fEntrySpec : GEntry FileInput := ⟨fun _ _ => Except.ok ⟨true, none⟩, "S"⟩

/-- Sample wildcard file handler whose `processed` echoes the flag it received. -/
def fEntryWild : GEntry FileInput := ⟨fun _ pb => Except.ok ⟨pb, none⟩, "W"⟩

/-- Sample adapter with one specific-MIME file chain and one wildcard chain. -/
def sampleFileAdapter : Adapter :=
  ⟨"42", [], [], [("application/pdf", [fEntrySpec]), ("", [fEntryWild])]⟩

/-- Sample adapter with a command chain under the key `go` and one under `''`. -/
def sampleCmdAdapter : Adapter :=
  ⟨"42", [("go", [entryA, entryB]), ("", [entryA])], [], []⟩

/-- Sample adapter whose `go` chain throws at the second handler. -/
def sampleThrowAdapter : Adapter :=
  ⟨"42", [("go", [entryA, entryThrow, entryB])], [], []⟩

/-- A message carrying only a photo payload. -/
def photoMsg : Msg := ⟨none, none, none, some (), none, none, none⟩

/-- A message carrying a PDF document payload. -/
def pdfMsg : Msg := ⟨some ⟨some "application/pdf"⟩, none, none, none, none, none, none⟩

theorem strData_append (s t : String) : (s ++ t).data = s.data ++ t.data := rfl

theorem withCatch_invocations (t : Trace × Except String Bool) :
    (withCatch t).invocations = t.1.invocations := by
  obtain ⟨a, b⟩ := t
  cases b <;> rfl

/-- The flag passed to the `i`-th invoked handler of a chain run is the OR of
the chain's starting flag and the `processed` results of all earlier
invocations. -/
theorem runChain_flag_formula {ι : Type} (x : ι) :
    ∀ (entries : List (GEntry ι)) (pb : Bool) (i : Nat) (inv : Invocation),
      ((runChain x entries pb).1.invocations).get? i = some inv →
      inv.flag = (pb || (((runChain x entries pb).1.invocations).take i).any procOf) := by
  intro entries
  induction entries with
  | nil =>
    intro pb i inv h
    simp [runChain, emptyTrace] at h
  | cons e rest ih =>
    intro pb i inv h
    cases hh : e.handler x pb with
    | error msg =>
      simp only [runChain, hh] at h ⊢
      cases i with
      | zero =>
        simp only [List.get?_cons_zero, Option.some.injEq] at h
        subst h
        simp
      | succ j =>
        simp at h
    | ok r =>
      simp only [runChain, hh] at h ⊢
      cases i with
      | zero =>
        simp only [List.get?_cons_zero, Option.some.injEq] at h
        subst h
        simp
      | succ j =>
        simp only [List.get?_cons_succ] at h
        rw [List.take_succ_cons, List.any_cons]
        rw [ih (pb || r.processed) j inv h]
        simp [procOf, Bool.or_assoc]

/-- Within one chain run the accumulated flag never falls back from `true` to
`false`. -/
theorem runChain_flag_mono {ι : Type} (x : ι) (entries : List (GEntry ι)) (pb : Bool)
    (i j : Nat) (invi invj : Invocation)
    (hi : ((runChain x entries pb).1.invocations).get? i = some invi)
    (hj : ((runChain x entries pb).1.invocations).get? j = some invj)
    (hij : i ≤ j) (hf : invi.flag = true) : invj.flag = true := by
  rw [runChain_flag_formula x entries pb j invj hj]
  rw [runChain_flag_formula x entries pb i invi hi] at hf
  simp only [Bool.or_eq_true] at hf ⊢
  rcases hf with hpb | hany
  · exact Or.inl hpb
  · refine Or.inr ?_
    obtain ⟨a, ha, hpa⟩ := List.any_eq_true.mp hany
    have hsub : ((runChain x entries pb).1.invocations).take i
        = (((runChain x entries pb).1.invocations).take j).take i := by
      rw [List.take_take, Nat.min_eq_left hij]
    rw [hsub] at ha
    exact List.any_eq_true.mpr ⟨a, List.take_subset i _ ha, hpa⟩

/-- C1: within one handler chain for one event, the `processed_before` flag
passed to each handler is the OR of the chain's starting flag and the
`processed` fields returned by all earlier handlers of that chain; once it is
`true` it stays `true` for every later handler.  The command, text and file
dispatchers all run their chains through `runChain` (conjuncts 3-5), so this
holds for command, text and file chains. -/
theorem C1_processed_before_accumulation :
    (∀ (ι : Type) (x : ι) (entries : List (GEntry ι)) (pb : Bool) (i : Nat)
        (inv : Invocation),
        ((runChain x entries pb).1.invocations).get? i = some inv →
        inv.flag = (pb || (((runChain x entries pb).1.invocations).take i).any procOf))
    ∧ (∀ (ι : Type) (x : ι) (entries : List (GEntry ι)) (pb : Bool) (i j : Nat)
        (invi invj : Invocation),
        ((runChain x entries pb).1.invocations).get? i = some invi →
        ((runChain x entries pb).1.invocations).get? j = some invj →
        i ≤ j → invi.flag = true → invj.flag = true)
    ∧ (∀ (ad : Adapter) (chat : String) (text : Option String),
        ∃ items, (dispatchCommand ad chat text).invocations
          = (runChain () items false).1.invocations)
    ∧ (∀ (ad : Adapter) (chat text : String),
        ∃ items, (dispatchText ad chat text).invocations
          = (runChain text items false).1.invocations)
    ∧ (∀ (ad : Adapter) (chat : String) (m : Option Msg) (cap : Option String)
        (mat : Except String TFileH),
        ∃ (y : FileInput) (l1 : List (GEntry FileInput)) (pb2 : Bool)
          (l2 : List (GEntry FileInput)),
          (dispatchFile ad chat m cap mat).invocations
            = (runChain y l1 false).1.invocations ++ (runChain y l2 pb2).1.invocations) := by
  refine ⟨fun ι x e pb i inv h => runChain_flag_formula x e pb i inv h,
          fun ι x e pb i j invi invj hi hj hij hf =>
            runChain_flag_mono x e pb i j invi invj hi hj hij hf,
          ?_, ?_, ?_⟩
  · intro ad chat text
    unfold dispatchCommand
    split
    · split
      · exact ⟨[], rfl⟩
      · split
        · exact ⟨[], rfl⟩
        · split
          · exact ⟨[], rfl⟩
          · exact ⟨_, withCatch_invocations _⟩
    · exact ⟨[], rfl⟩
  · intro ad chat text
    unfold dispatchText
    split
    · split
      · exact ⟨[], rfl⟩
      · exact ⟨ad.text_handlers, withCatch_invocations _⟩
    · exact ⟨[], rfl⟩
  · intro ad chat m cap mat
    by_cases hchat : chat = ad.chat_id
    · cases m with
      | none =>
        exact ⟨(⟨""⟩, none), [], false, [], by simp [dispatchFile, hchat, emptyTrace, runChain]⟩
      | some mm =>
        cases hmt : getFileMimeType mm with
        | none =>
          exact ⟨(⟨""⟩, none), [], false, [],
            by simp [dispatchFile, hchat, hmt, emptyTrace, runChain]⟩
        | some mime =>
          by_cases hmime : mime = ""
          · exact ⟨(⟨""⟩, none), [], false, [],
              by simp [dispatchFile, hchat, hmt, hmime, emptyTrace, runChain]⟩
          · cases hsp : regGet ad.file_handlers mime with
            | none =>
              cases hw : regGet ad.file_handlers "" with
              | none =>
                exact ⟨(⟨""⟩, none), [], false, [],
                  by simp [dispatchFile, hchat, hmt, hmime, hsp, hw, emptyTrace, runChain]⟩
              | some l2 =>
                cases mat with
                | error err =>
                  exact ⟨(⟨""⟩, none), [], false, [],
                    by simp [dispatchFile, hchat, hmt, hmime, hsp, hw, emptyTrace, runChain]⟩
                | ok f =>
                  refine ⟨(f, cap), [], false, l2, ?_⟩
                  simp [dispatchFile, hchat, hmt, hmime, hsp, hw, withCatch_invocations,
                    runChain, emptyTrace]
            | some l1 =>
              cases mat with
              | error err =>
                exact ⟨(⟨""⟩, none), [], false, [],
                  by simp [dispatchFile, hchat, hmt, hmime, hsp, emptyTrace, runChain]⟩
              | ok f =>
                rcases hrun : runChain (f, cap) l1 false with ⟨t1, res⟩
                cases res with
                | error msg =>
                  refine ⟨(f, cap), l1, false, [], ?_⟩
                  simp [dispatchFile, hchat, hmt, hmime, hsp, hrun, emptyTrace, runChain]
                | ok pb =>
                  cases hw : regGet ad.file_handlers "" with
                  | none =>
                    refine ⟨(f, cap), l1, false, [], ?_⟩
                    simp [dispatchFile, hchat, hmt, hmime, hsp, hw, hrun, emptyTrace, runChain]
                  | some l2 =>
                    refine ⟨(f, cap), l1, pb, l2, ?_⟩
                    simp [dispatchFile, hchat, hmt, hmime, hsp, hw, hrun,
                      withCatch_invocations]
    · exact ⟨(⟨""⟩, none), [], false, [],
        by simp [dispatchFile, hchat, emptyTrace, runChain]⟩

/-- C1 witness: in the sample chain the second handler receives the flag
accumulated from the first handler's `processed = true`. -/
theorem C1_witness :
    ((runChain () sampleChain false).1.invocations).get? 1
        = some ⟨"B", true, Except.ok ⟨false, none⟩⟩
    ∧ (⟨"B", true, Except.ok ⟨false, none⟩⟩ : Invocation).flag
        = (false || (((runChain () sampleChain false).1.invocations).take 1).any procOf) := by
  constructor
  · rfl
  · exact C1_processed_before_accumulation.1 Unit () sampleChain false 1 _ rfl

theorem strData_mk (l : List Char) : (String.mk l).data = l := rfl

theorem escList_append :
    ∀ (l1 l2 : List Char), escList (l1 ++ l2) = escList l1 ++ escList l2 := by
  intro l1 l2
  induction l1 with
  | nil => simp [escList]
  | cons c cs ih => simp [escList, ih]

theorem regGet_regAdd_self {α : Type} :
    ∀ (r : List (String × List α)) (k : String) (e : α),
      regGet (regAdd r k e) k = some ((regGet r k).getD [] ++ [e]) := by
  intro r k e
  induction r with
  | nil => simp [regGet, regAdd]
  | cons p rest ih =>
    obtain ⟨k2, l⟩ := p
    by_cases hk : k2 = k
    · subst hk
      simp [regGet, regAdd]
    · simp [regGet, regAdd, hk, ih]

theorem regGet_regAdd_ne {α : Type} :
    ∀ (r : List (String × List α)) (k k2 : String) (e : α), k2 ≠ k →
      regGet (regAdd r k e) k2 = regGet r k2 := by
  intro r k k2 e hne
  induction r with
  | nil => simp [regGet, regAdd, Ne.symm hne]
  | cons p rest ih =>
    obtain ⟨k3, l⟩ := p
    by_cases hk : k3 = k
    · subst hk
      simp [regGet, regAdd, Ne.symm hne]
    · simp [regGet, regAdd, hk, ih]

/-- In a successful chain run every registered handler is invoked, in
registration order (witnessed by the owner labels). -/
theorem runChain_units_ok {ι : Type} (x : ι) :
    ∀ (entries : List (GEntry ι)) (pb b : Bool) (t : Trace),
      runChain x entries pb = (t, Except.ok b) →
      t.invocations.map Invocation.unit = entries.map GEntry.unit := by
  intro entries
  induction entries with
  | nil =>
    intro pb b t h
    simp only [runChain, Prod.mk.injEq] at h
    obtain ⟨ht, _⟩ := h
    subst ht
    simp [emptyTrace]
  | cons e rest ih =>
    intro pb b t h
    cases hh : e.handler x pb with
    | error msg =>
      simp [runChain, hh, Prod.ext_iff] at h
    | ok r =>
      simp only [runChain, hh, Prod.mk.injEq] at h
      obtain ⟨ht, hres⟩ := h
      subst ht
      have hpair : runChain x rest (pb || r.processed)
          = ((runChain x rest (pb || r.processed)).1, Except.ok b) := by
        rw [← hres]
      have hrec := ih (pb || r.processed) b ((runChain x rest (pb || r.processed)).1) hpair
      simpa using hrec

/-- Shape of a chain run that ended in a throw: at least one handler was
invoked, the invoked handlers are exactly an initial segment of the
registered chain, and the last invocation is the throwing one. -/
theorem runChain_error_shape {ι : Type} (x : ι) :
    ∀ (entries : List (GEntry ι)) (pb : Bool) (t : Trace) (msg : String),
      runChain x entries pb = (t, Except.error msg) →
      t.invocations ≠ []
      ∧ t.invocations.map Invocation.unit
          = (entries.take t.invocations.length).map GEntry.unit
      ∧ t.invocations.length ≤ entries.length
      ∧ (∃ u fl, t.invocations.getLast? = some ⟨u, fl, Except.error msg⟩) := by
  intro entries
  induction entries with
  | nil =>
    intro pb t msg h
    simp [runChain, Prod.ext_iff] at h
  | cons e rest ih =>
    intro pb t msg h
    cases hh : e.handler x pb with
    | error m2 =>
      simp only [runChain, hh, Prod.mk.injEq, Except.error.injEq] at h
      obtain ⟨ht, hm⟩ := h
      subst hm
      subst ht
      refine ⟨by simp, by simp, by simp, e.unit, pb, by simp⟩
    | ok r =>
      simp only [runChain, hh, Prod.mk.injEq] at h
      obtain ⟨ht, hres⟩ := h
      subst ht
      have hpair : runChain x rest (pb || r.processed)
          = ((runChain x rest (pb || r.processed)).1, Except.error msg) := by
        rw [← hres]
      obtain ⟨hne, hmap, hlen, u, fl, hlast⟩ :=
        ih (pb || r.processed) ((runChain x rest (pb || r.processed)).1) msg hpair
      refine ⟨by simp, ?_, by simpa using Nat.succ_le_succ hlen, u, fl, ?_⟩
      · simpa using hmap
      · rcases hinv : (runChain x rest (pb || r.processed)).1.invocations with _ | ⟨b, l2⟩
        · exact absurd hinv hne
        · rw [hinv] at hlast
          simpa [List.getLast?_cons_cons, hinv] using hlast

/-- Every reply a chain run emits is a formatted owner-labelled reply. -/
theorem runChain_replies_formatted {ι : Type} (x : ι) :
    ∀ (entries : List (GEntry ι)) (pb : Bool) (s : String),
      s ∈ (runChain x entries pb).1.replies → ∃ u a, s = formatReply u a := by
  intro entries
  induction entries with
  | nil =>
    intro pb s h
    simp [runChain, emptyTrace] at h
  | cons e rest ih =>
    intro pb s h
    cases hh : e.handler x pb with
    | error m =>
      simp [runChain, hh] at h
    | ok r =>
      simp only [runChain, hh] at h
      rw [List.mem_append] at h
      rcases h with h | h
      · unfold replyFor at h
        rcases hr : r.answer with _ | a
        · rw [hr] at h
          simp at h
        · rw [hr] at h
          by_cases ha : a = ""
          · simp [ha] at h
          · simp [ha] at h
            exact ⟨e.unit, a, h⟩
      · exact ih (pb || r.processed) s h

theorem formatReply_ne_internalError (u a : String) : formatReply u a ≠ internalError := by
  intro h
  have h2 := congrArg (fun s : String => s.data.head?) h
  simp only [formatReply, internalError, strData_append] at h2
  simp only [List.cons_append, List.singleton_append, List.append_assoc,
    List.head?_cons, Option.some.injEq] at h2
  exact absurd h2 (by decide)

/-- C3: registration appends a `(handler, owner)` entry to the end of the
key's list (creating the list if absent) and leaves other keys untouched;
duplicate registrations under the same key are permitted and produce two
entries; a successful dispatch invokes the chain's handlers exactly in
registration order. -/
theorem C3_registration_append_and_order :
    (∀ (α : Type) (r : List (String × List α)) (k : String) (e : α),
        regGet (regAdd r k e) k = some ((regGet r k).getD [] ++ [e]))
    ∧ (∀ (α : Type) (r : List (String × List α)) (k k2 : String) (e : α), k2 ≠ k →
        regGet (regAdd r k e) k2 = regGet r k2)
    ∧ (∀ (α : Type) (r : List (String × List α)) (k : String) (e1 e2 : α),
        regGet (regAdd (regAdd r k e1) k e2) k
          = some ((regGet r k).getD [] ++ [e1, e2]))
    ∧ (∀ (ad : Adapter) (e : GEntry String),
        (addTextHandler ad e).text_handlers = ad.text_handlers ++ [e])
    ∧ (∀ (ι : Type) (x : ι) (entries : List (GEntry ι)) (pb b : Bool) (t : Trace),
        runChain x entries pb = (t, Except.ok b) →
        t.invocations.map Invocation.unit = entries.map GEntry.unit) := by
  refine ⟨fun α r k e => regGet_regAdd_self r k e,
          fun α r k k2 e h => regGet_regAdd_ne r k k2 e h,
          ?_,
          fun ad e => rfl,
          fun ι x entries pb b t h => runChain_units_ok x entries pb b t h⟩
  intro α r k e1 e2
  rw [regGet_regAdd_self, regGet_regAdd_self]
  simp

/-- C3 witness: appending `B` to the chain of key `go` puts it after `A`, and
running the sample chain invokes owners in registration order `A`, `B`. -/
theorem C3_witness :
    regGet (regAdd [("go", [entryA])] "go" entryB) "go" = some [entryA, entryB]
    ∧ (runChain () sampleChain false).1.invocations.map Invocation.unit = ["A", "B"] := by
  constructor
  · have h := C3_registration_append_and_order.1 (GEntry Unit) [("go", [entryA])] "go" entryB
    rw [h]
    rfl
  · have h := C3_registration_append_and_order.2.2.2.2 Unit () sampleChain false true
      (runChain () sampleChain false).1 rfl
    exact h.trans (by rfl)

/-- C4: the outbound reply is composed as `*` + esc(owner) + `:*` + newline +
esc(answer); `esc` is a character-wise transform that distributes over
concatenation, prefixes every character of the escape set with exactly one
backslash and leaves all other characters unchanged; a truthy answer is sent
exactly as this composition. -/
theorem C4_escaping_and_composition :
    (∀ (u a : String), formatReply u a = "*" ++ esc u ++ ":*\n" ++ esc a)
    ∧ (∀ (s t : String), esc (s ++ t) = esc s ++ esc t)
    ∧ (∀ c : Char, c ∈ escChars → esc (String.mk [c]) = String.mk ['\\', c])
    ∧ (∀ c : Char, c ∉ escChars → esc (String.mk [c]) = String.mk [c])
    ∧ (∀ (unit : String) (r : HandlerResult) (a : String),
        r.answer = some a → a ≠ "" → replyFor unit r = [formatReply unit a]) := by
  refine ⟨fun u a => rfl, ?_, ?_, ?_, ?_⟩
  · intro s t
    apply String.ext
    simp [esc, strData_append, strData_mk, escList_append]
  · intro c hc
    simp [esc, escList, strData_mk, hc]
  · intro c hc
    simp [esc, escList, strData_mk, hc]
  · intro unit r a ha hne
    simp [replyFor, ha, hne]

/-- C4 witness: the dot is escaped with exactly one backslash, and a truthy
answer is sent as the labelled composition. -/
theorem C4_witness :
    esc (String.mk ['.']) = String.mk ['\\', '.']
    ∧ replyFor "A" ⟨true, some "done"⟩ = [formatReply "A" "done"] := by
  constructor
  · exact C4_escaping_and_composition.2.2.1 '.' (by decide)
  · exact C4_escaping_and_composition.2.2.2.2 "A" ⟨true, some "done"⟩ "done" rfl (by decide)

/-- C5 counterexample: a handler that returns the non-null answer `""`
produces no reply — `if (reply.answer)` tests JavaScript truthiness, and the
empty string is falsy — refuting the claim that every non-null answer yields
one reply. -/
theorem C5_counterexample :
    entryEmptyAnswer.handler () false = Except.ok ⟨false, some ""⟩
    ∧ (some "" : Option String) ≠ none
    ∧ (runChain () [entryEmptyAnswer] false).1.replies = [] := by
  refine ⟨rfl, by simp, rfl⟩

/-- C5 (amended): the replies of a chain run are exactly the concatenation,
in invocation order, of each invocation's replies: one reply labelled with
the handler's owner when its answer is non-null and non-empty, and no reply
when the answer is `null` or the empty string. -/
theorem C5_replies_per_invocation :
    ∀ (ι : Type) (x : ι) (entries : List (GEntry ι)) (pb : Bool),
      (runChain x entries pb).1.replies
        = ((runChain x entries pb).1.invocations).flatMap invReplies := by
  intro ι x entries
  induction entries with
  | nil =>
    intro pb
    simp [runChain, emptyTrace]
  | cons e rest ih =>
    intro pb
    cases hh : e.handler x pb with
    | error m =>
      simp [runChain, hh, invReplies]
    | ok r =>
      simp only [runChain, hh]
      simp [List.flatMap_cons, invReplies, ih (pb || r.processed)]

/-- C2: for a classifiable file event, if both a specific-MIME chain and a
wildcard chain are registered, the specific chain runs first in full starting
from flag `false` and its final accumulated flag starts the wildcard chain;
if only one chain exists only that one runs (from `false`); if neither
exists the event is a complete no-op — no handler runs and no reply is sent,
whatever the materialization outcome. -/
theorem C2_file_chain_sequencing :
    ∀ (ad : Adapter) (chat : String) (m : Msg) (cap : Option String) (f : TFileH)
      (mime : String),
      chat = ad.chat_id → getFileMimeType m = some mime → mime ≠ "" →
      ((∀ (l1 l2 : List (GEntry FileInput)) (t1 : Trace) (b : Bool),
          regGet ad.file_handlers mime = some l1 →
          regGet ad.file_handlers "" = some l2 →
          runChain (f, cap) l1 false = (t1, Except.ok b) →
          dispatchFile ad chat (some m) cap (Except.ok f)
            = ⟨t1.invocations ++ (runChain (f, cap) l2 b).1.invocations,
               t1.replies ++ (withCatch (runChain (f, cap) l2 b)).replies⟩)
       ∧ (∀ (l1 : List (GEntry FileInput)),
          regGet ad.file_handlers mime = some l1 →
          regGet ad.file_handlers "" = none →
          dispatchFile ad chat (some m) cap (Except.ok f)
            = withCatch (runChain (f, cap) l1 false))
       ∧ (∀ (l2 : List (GEntry FileInput)),
          regGet ad.file_handlers mime = none →
          regGet ad.file_handlers "" = some l2 →
          dispatchFile ad chat (some m) cap (Except.ok f)
            = withCatch (runChain (f, cap) l2 false))
       ∧ (regGet ad.file_handlers mime = none →
          regGet ad.file_handlers "" = none →
          ∀ (mat : Except String TFileH),
            dispatchFile ad chat (some m) cap mat = emptyTrace)) := by
  intro ad chat m cap f mime hchat hmt hne
  subst hchat
  refine ⟨?_, ?_, ?_, ?_⟩
  · intro l1 l2 t1 b hsp hw hrun
    rcases hX : runChain (f, cap) l2 b with ⟨t2, res2⟩
    cases res2 with
    | ok pb2 => simp [dispatchFile, hmt, hne, hsp, hw, hrun, hX, withCatch]
    | error m2 => simp [dispatchFile, hmt, hne, hsp, hw, hrun, hX, withCatch]
  · intro l1 hsp hw
    rcases hrun : runChain (f, cap) l1 false with ⟨t1, res1⟩
    cases res1 with
    | ok pb1 => simp [dispatchFile, hmt, hne, hsp, hw, hrun, withCatch]
    | error m1 => simp [dispatchFile, hmt, hne, hsp, hw, hrun, withCatch]
  · intro l2 hsp hw
    simp [dispatchFile, hmt, hne, hsp, hw]
  · intro hsp hw mat
    simp [dispatchFile, hmt, hne, hsp, hw]

/-- C2 witness: with a claiming specific handler and an echoing wildcard
handler, the wildcard invocation starts from the specific chain's final flag:
the two invocations receive flags `false` then `true`. -/
theorem C2_witness :
    (dispatchFile sampleFileAdapter "42" (some pdfMsg) none
        (Except.ok ⟨"f"⟩)).invocations.map Invocation.flag = [false, true] := by
  have h := (C2_file_chain_sequencing sampleFileAdapter "42" pdfMsg none ⟨"f"⟩
      "application/pdf" rfl rfl (by decide)).1 [fEntrySpec] [fEntryWild]
      (runChain ((⟨"f"⟩ : TFileH), (none : Option String)) [fEntrySpec] false).1 true
      rfl rfl rfl
  rw [h]
  rfl

/-- C6: an event whose originating chat identity differs from the configured
`chat_id` is a silent no-op in every path — no handler invocation and no
reply, for command, text and file events alike. -/
theorem C6_unauthorized_silent :
    ∀ (ad : Adapter) (ev : Event),
      eventChat ev ≠ ad.chat_id → dispatchEvent ad ev = emptyTrace := by
  intro ad ev h
  cases ev with
  | cmd c t =>
    simp only [eventChat] at h
    simp only [dispatchEvent, dispatchCommand]
    rw [if_neg h]
  | txt c t =>
    simp only [eventChat] at h
    simp only [dispatchEvent, dispatchText]
    rw [if_neg h]
  | file c m cap mat =>
    simp only [eventChat] at h
    simp only [dispatchEvent, dispatchFile]
    rw [if_neg h]

/-- C6 witness: a command from chat `13` against an adapter configured for
chat `42` produces the empty trace despite a registered handler chain. -/
theorem C6_witness :
    dispatchEvent sampleCmdAdapter (Event.cmd "13" (some "/go")) = emptyTrace :=
  C6_unauthorized_silent sampleCmdAdapter (Event.cmd "13" (some "/go")) (by decide)

/-- No reply produced by a chain run equals the generic internal-error text:
chain replies are owner-labelled formatted replies. -/
theorem runChain_count_internalError {ι : Type} (x : ι) (entries : List (GEntry ι))
    (pb : Bool) : (runChain x entries pb).1.replies.count internalError = 0 := by
  rw [List.count_eq_zero]
  intro hmem
  obtain ⟨u2, a2, hua⟩ := runChain_replies_formatted x entries pb internalError hmem
  exact formatReply_ne_internalError u2 a2 hua.symm

/-- C7: when a handler throws during one event, the event produces exactly one
generic internal-error reply and the remaining handlers of that chain are not
invoked (the invoked handlers are an initial segment ending at the throwing
one), for command chains (conjunct 1), text chains (conjunct 2) and file
chains: a throw in the specific-MIME chain sends the single internal-error
reply and suppresses the wildcard chain entirely (conjunct 3), and a throw in
the wildcard chain aborts its remainder after the specific chain ran in full
(conjunct 4).  Dispatch only reads the registries, so a subsequent unrelated
event is processed against the unchanged adapter exactly as on its own. -/
theorem C7_handler_throw_containment :
    (∀ (ad : Adapter) (chat s cmd : String) (items : List (GEntry Unit))
       (t : Trace) (msg : String) (e2 : Event),
       chat = ad.chat_id → strDrop s 1 = cmd → cmd ≠ "" →
       regGet ad.command_handlers cmd = some items →
       runChain () items false = (t, Except.error msg) →
       (dispatchCommand ad chat (some s)
           = ⟨t.invocations, t.replies ++ [internalError]⟩
        ∧ (dispatchCommand ad chat (some s)).replies.count internalError = 1
        ∧ t.invocations ≠ []
        ∧ t.invocations.map Invocation.unit
            = (items.take t.invocations.length).map GEntry.unit
        ∧ t.invocations.length ≤ items.length
        ∧ (∃ u fl, t.invocations.getLast? = some ⟨u, fl, Except.error msg⟩)
        ∧ processEvents ad [Event.cmd chat (some s), e2]
            = [dispatchCommand ad chat (some s), dispatchEvent ad e2]))
    ∧ (∀ (ad : Adapter) (chat text : String) (t : Trace) (msg : String) (e2 : Event),
       chat = ad.chat_id →
       runChain text ad.text_handlers false = (t, Except.error msg) →
       (dispatchText ad chat text = ⟨t.invocations, t.replies ++ [internalError]⟩
        ∧ (dispatchText ad chat text).replies.count internalError = 1
        ∧ t.invocations ≠ []
        ∧ t.invocations.map Invocation.unit
            = (ad.text_handlers.take t.invocations.length).map GEntry.unit
        ∧ t.invocations.length ≤ ad.text_handlers.length
        ∧ (∃ u fl, t.invocations.getLast? = some ⟨u, fl, Except.error msg⟩)
        ∧ processEvents ad [Event.txt chat text, e2]
            = [dispatchText ad chat text, dispatchEvent ad e2]))
    ∧ (∀ (ad : Adapter) (chat : String) (m : Msg) (cap : Option String) (f : TFileH)
       (mime : String) (l1 : List (GEntry FileInput)) (t : Trace) (msg : String)
       (e2 : Event),
       chat = ad.chat_id → getFileMimeType m = some mime → mime ≠ "" →
       regGet ad.file_handlers mime = some l1 →
       runChain (f, cap) l1 false = (t, Except.error msg) →
       (dispatchFile ad chat (some m) cap (Except.ok f)
           = ⟨t.invocations, t.replies ++ [internalError]⟩
        ∧ (dispatchFile ad chat (some m) cap
             (Except.ok f)).replies.count internalError = 1
        ∧ t.invocations ≠ []
        ∧ t.invocations.map Invocation.unit
            = (l1.take t.invocations.length).map GEntry.unit
        ∧ t.invocations.length ≤ l1.length
        ∧ (∃ u fl, t.invocations.getLast? = some ⟨u, fl, Except.error msg⟩)
        ∧ processEvents ad [Event.file chat (some m) cap (Except.ok f), e2]
            = [dispatchFile ad chat (some m) cap (Except.ok f), dispatchEvent ad e2]))
    ∧ (∀ (ad : Adapter) (chat : String) (m : Msg) (cap : Option String) (f : TFileH)
       (mime : String) (l1 l2 : List (GEntry FileInput)) (t1 : Trace) (b : Bool)
       (t2 : Trace) (msg : String) (e2 : Event),
       chat = ad.chat_id → getFileMimeType m = some mime → mime ≠ "" →
       regGet ad.file_handlers mime = some l1 →
       regGet ad.file_handlers "" = some l2 →
       runChain (f, cap) l1 false = (t1, Except.ok b) →
       runChain (f, cap) l2 b = (t2, Except.error msg) →
       (dispatchFile ad chat (some m) cap (Except.ok f)
           = ⟨t1.invocations ++ t2.invocations,
              t1.replies ++ t2.replies ++ [internalError]⟩
        ∧ (dispatchFile ad chat (some m) cap
             (Except.ok f)).replies.count internalError = 1
        ∧ t2.invocations ≠ []
        ∧ t2.invocations.map Invocation.unit
            = (l2.take t2.invocations.length).map GEntry.unit
        ∧ t2.invocations.length ≤ l2.length
        ∧ (∃ u fl, t2.invocations.getLast? = some ⟨u, fl, Except.error msg⟩)
        ∧ processEvents ad [Event.file chat (some m) cap (Except.ok f), e2]
            = [dispatchFile ad chat (some m) cap (Except.ok f), dispatchEvent ad e2])) := by
  refine ⟨?_, ?_, ?_, ?_⟩
  · intro ad chat s cmd items t msg e2 hchat hs hcmd hreg hrun
    subst hchat
    have hdc : dispatchCommand ad ad.chat_id (some s)
        = ⟨t.invocations, t.replies ++ [internalError]⟩ := by
      simp [dispatchCommand, hs, hcmd, hreg, hrun, withCatch]
    obtain ⟨hne, hmap, hlen, u, fl, hlast⟩ := runChain_error_shape () items false t msg hrun
    have hrep : t.replies = (runChain () items false).1.replies := by rw [hrun]
    refine ⟨hdc, ?_, hne, hmap, hlen, ⟨u, fl, hlast⟩,
      by simp [processEvents, dispatchEvent]⟩
    rw [hdc]
    show (t.replies ++ [internalError]).count internalError = 1
    rw [hrep, List.count_append, runChain_count_internalError]
    simp
  · intro ad chat text t msg e2 hchat hrun
    subst hchat
    have hnn : ad.text_handlers.length ≠ 0 := by
      intro h0
      have hnil : ad.text_handlers = [] := List.length_eq_zero.mp h0
      rw [hnil] at hrun
      simp [runChain, Prod.ext_iff] at hrun
    have hdc : dispatchText ad ad.chat_id text
        = ⟨t.invocations, t.replies ++ [internalError]⟩ := by
      simp [dispatchText, hnn, hrun, withCatch]
    obtain ⟨hne, hmap, hlen, u, fl, hlast⟩ :=
      runChain_error_shape text ad.text_handlers false t msg hrun
    have hrep : t.replies = (runChain text ad.text_handlers false).1.replies := by rw [hrun]
    refine ⟨hdc, ?_, hne, hmap, hlen, ⟨u, fl, hlast⟩,
      by simp [processEvents, dispatchEvent]⟩
    rw [hdc]
    show (t.replies ++ [internalError]).count internalError = 1
    rw [hrep, List.count_append, runChain_count_internalError]
    simp
  · intro ad chat m cap f mime l1 t msg e2 hchat hmt hne0 hsp hrun
    subst hchat
    have hdf : dispatchFile ad ad.chat_id (some m) cap (Except.ok f)
        = ⟨t.invocations, t.replies ++ [internalError]⟩ := by
      simp [dispatchFile, hmt, hne0, hsp, hrun]
    obtain ⟨hne, hmap, hlen, u, fl, hlast⟩ :=
      runChain_error_shape (f, cap) l1 false t msg hrun
    have hrep : t.replies = (runChain (f, cap) l1 false).1.replies := by rw [hrun]
    refine ⟨hdf, ?_, hne, hmap, hlen, ⟨u, fl, hlast⟩,
      by simp [processEvents, dispatchEvent]⟩
    rw [hdf]
    show (t.replies ++ [internalError]).count internalError = 1
    rw [hrep, List.count_append, runChain_count_internalError]
    simp
  · intro ad chat m cap f mime l1 l2 t1 b t2 msg e2 hchat hmt hne0 hsp hw hrun1 hrun2
    subst hchat
    have hdf : dispatchFile ad ad.chat_id (some m) cap (Except.ok f)
        = ⟨t1.invocations ++ t2.invocations,
           t1.replies ++ t2.replies ++ [internalError]⟩ := by
      simp [dispatchFile, hmt, hne0, hsp, hw, hrun1, hrun2, withCatch]
    obtain ⟨hne2, hmap2, hlen2, u, fl, hlast2⟩ :=
      runChain_error_shape (f, cap) l2 b t2 msg hrun2
    have hrep1 : t1.replies = (runChain (f, cap) l1 false).1.replies := by rw [hrun1]
    have hrep2 : t2.replies = (runChain (f, cap) l2 b).1.replies := by rw [hrun2]
    refine ⟨hdf, ?_, hne2, hmap2, hlen2, ⟨u, fl, hlast2⟩,
      by simp [processEvents, dispatchEvent]⟩
    rw [hdf]
    show (t1.replies ++ t2.replies ++ [internalError]).count internalError = 1
    rw [hrep1, hrep2, List.count_append, List.count_append,
      runChain_count_internalError, runChain_count_internalError]
    simp

/-- C7 witness: in the sample throwing command chain the first handler
replies, the second throws — one internal-error reply, owners `A`, `T`
invoked; and a throwing specific file chain yields one internal-error reply
while the registered wildcard chain is never invoked. -/
theorem C7_witness :
    (dispatchCommand sampleThrowAdapter "42" (some "/go")).replies.count internalError = 1
    ∧ (dispatchCommand sampleThrowAdapter "42" (some "/go")).invocations.map Invocation.unit
        = ["A", "T"]
    ∧ dispatchFile
        ⟨"42", [], [],
         [("application/pdf", [⟨fun _ _ => Except.error "boom", "FS"⟩]),
          ("", [fEntryWild])]⟩
        "42" (some pdfMsg) none (Except.ok ⟨"f"⟩)
        = ⟨[⟨"FS", false, Except.error "boom"⟩], [internalError]⟩ := by
  have h := C7_handler_throw_containment.1 sampleThrowAdapter "42" "/go" "go"
      [entryA, entryThrow, entryB] (runChain () [entryA, entryThrow, entryB] false).1 "boom"
      (Event.txt "42" "x") rfl rfl (by decide) rfl rfl
  have h3 := (C7_handler_throw_containment.2.2.1
      ⟨"42", [], [],
       [("application/pdf", [⟨fun _ _ => Except.error "boom", "FS"⟩]),
        ("", [fEntryWild])]⟩
      "42" pdfMsg none ⟨"f"⟩ "application/pdf"
      [⟨fun _ _ => Except.error "boom", "FS"⟩]
      (runChain ((⟨"f"⟩ : TFileH), (none : Option String))
        [⟨fun _ _ => Except.error "boom", "FS"⟩] false).1 "boom"
      (Event.txt "42" "x") rfl rfl (by decide) rfl rfl).1
  refine ⟨h.2.1, ?_, ?_⟩
  · rw [h.1]
    rfl
  · exact h3

/-- C8: the MIME classifier checks payload kinds in the fixed priority order
document, animation, audio, photo, video, voice, video-note; photo maps to
`image/jpeg`, video-note to `video/mp4`, the remaining kinds pass the
provider MIME string through (possibly absent), and a message with no
payload kind is unclassifiable. -/
theorem C8_mime_priority :
    ∀ (m : Msg),
      ((∀ d, m.document = some d → getFileMimeType m = d.mime_type)
      ∧ (m.document = none → ∀ a, m.animation = some a →
          getFileMimeType m = a.mime_type)
      ∧ (m.document = none → m.animation = none → ∀ a, m.audio = some a →
          getFileMimeType m = a.mime_type)
      ∧ (m.document = none → m.animation = none → m.audio = none →
          m.photo = some () → getFileMimeType m = some "image/jpeg")
      ∧ (m.document = none → m.animation = none → m.audio = none →
          m.photo = none → ∀ v, m.video = some v → getFileMimeType m = v.mime_type)
      ∧ (m.document = none → m.animation = none → m.audio = none →
          m.photo = none → m.video = none → ∀ v, m.voice = some v →
          getFileMimeType m = v.mime_type)
      ∧ (m.document = none → m.animation = none → m.audio = none →
          m.photo = none → m.video = none → m.voice = none →
          m.video_note = some () → getFileMimeType m = some "video/mp4")
      ∧ (m.document = none → m.animation = none → m.audio = none →
          m.photo = none → m.video = none → m.voice = none →
          m.video_note = none → getFileMimeType m = none)) := by
  intro m
  refine ⟨?_, ?_, ?_, ?_, ?_, ?_, ?_, ?_⟩ <;> intros <;> simp_all [getFileMimeType]

/-- C8 witness: a photo-only message classifies as `image/jpeg`. -/
theorem C8_witness : getFileMimeType photoMsg = some "image/jpeg" :=
  (C8_mime_priority photoMsg).2.2.2.1 rfl rfl rfl rfl

theorem pathJoin_left_nil (b : String) : pathJoin "" b = b := by
  unfold pathJoin
  rw [if_pos rfl]

theorem pathJoin_ne (a b : String) (ha : a ≠ "") (hb : b ≠ "") :
    pathJoin a b = a ++ "/" ++ b := by
  unfold pathJoin
  rw [if_neg ha, if_neg hb]

theorem append_ne_of_ne (ts r1 r2 : String) (h : r1 ≠ r2) : ts ++ r1 ≠ ts ++ r2 := by
  intro he
  apply h
  apply String.ext
  have hd := congrArg String.data he
  rw [strData_append, strData_append] at hd
  exact List.append_cancel_left hd

/-- The backslash-to-slash map is injective on slash-free character lists. -/
theorem rb_inj_on_slashfree :
    ∀ (l1 l2 : List Char), (∀ c ∈ l1, c ≠ '/') → (∀ c ∈ l2, c ≠ '/') →
      l1.map (fun c => if c = '\\' then '/' else c)
        = l2.map (fun c => if c = '\\' then '/' else c) → l1 = l2 := by
  intro l1
  induction l1 with
  | nil =>
    intro l2 _ _ h
    cases l2 with
    | nil => rfl
    | cons b bs => simp at h
  | cons a as ih =>
    intro l2 h1 h2 h
    cases l2 with
    | nil => simp at h
    | cons b bs =>
      simp only [List.map_cons, List.cons.injEq] at h
      obtain ⟨hab, hrest⟩ := h
      have ha := h1 a (by simp)
      have hb := h2 b (by simp)
      have hcore : a = b := by
        by_cases ca : a = '\\'
        · by_cases cb : b = '\\'
          · rw [ca, cb]
          · rw [if_pos ca, if_neg cb] at hab
            exact absurd hab.symm hb
        · by_cases cb : b = '\\'
          · rw [if_neg ca, if_pos cb] at hab
            exact absurd hab ha
          · rw [if_neg ca, if_neg cb] at hab
            exact hab
      subst hcore
      rw [ih bs (fun c hc => h1 c (by simp [hc])) (fun c hc => h2 c (by simp [hc])) hrest]

/-- The slash-replaced remote path contains no slash. -/
theorem replaceSlashes_slashfree (p : String) :
    ∀ c ∈ (replaceSlashes p).data, c ≠ '/' := by
  intro c hc
  simp only [replaceSlashes, strData_mk, List.mem_map] at hc
  obtain ⟨c0, _, hc0⟩ := hc
  subst hc0
  by_cases h0 : c0 = '/'
  · simp only [h0, if_pos rfl]
    decide
  · simp only [if_neg h0]
    exact h0

/-- Decomposition of the download destination: a prefix independent of the
file name, followed by the file name. -/
theorem downloadDest_decomp (vault dl : String) :
    ∃ B : List Char,
      (strLen vault + 1 ≤ B.length ∨ (vault = "" ∧ B = []))
      ∧ ∀ n : String, n ≠ "" → (downloadDest vault dl n).data = B ++ n.data := by
  by_cases hP : pathJoin vault dl = ""
  · refine ⟨[], Or.inr ⟨?_, rfl⟩, ?_⟩
    · by_cases hv0 : vault = ""
      · exact hv0
      · exfalso
        unfold pathJoin at hP
        rw [if_neg hv0] at hP
        by_cases hd0 : dl = ""
        · rw [if_pos hd0] at hP
          exact hv0 hP
        · rw [if_neg hd0] at hP
          have hdata := congrArg String.data hP
          rw [strData_append, strData_append] at hdata
          have h2 : (vault.data ++ ("/" : String).data) ++ dl.data = ([] : List Char) := hdata
          have h3 := (List.append_eq_nil.mp h2).1
          exact hv0 (String.ext (List.append_eq_nil.mp h3).1)
    · intro n hn
      show (pathJoin (pathJoin vault dl) n).data = [] ++ n.data
      rw [hP, pathJoin_left_nil]
      simp
  · refine ⟨(pathJoin vault dl).data ++ ['/'], Or.inl ?_, ?_⟩
    · have hle : strLen vault ≤ (pathJoin vault dl).data.length := by
        unfold pathJoin
        by_cases hv0 : vault = ""
        · simp [hv0, strLen]
        · rw [if_neg hv0]
          by_cases hd0 : dl = ""
          · simp [hd0, strLen]
          · rw [if_neg hd0, strData_append, strData_append]
            simp only [List.length_append, strLen]
            omega
      simp only [List.length_append, List.length_cons, List.length_nil]
      omega
    · intro n hn
      rw [show downloadDest vault dl n = pathJoin vault dl ++ "/" ++ n from
          pathJoin_ne (pathJoin vault dl) n hP hn]
      rw [strData_append, strData_append]

/-- Distinct slash-free name suffixes survive the whole path pipeline:
the vault-relative paths of the two materialized files differ. -/
theorem pathInVault_ne (vault dl ts r1 r2 : String)
    (hts : ts ≠ "")
    (h1 : ∀ c ∈ r1.data, c ≠ '/') (h2 : ∀ c ∈ r2.data, c ≠ '/')
    (hne : r1 ≠ r2) :
    pathInVault vault (downloadDest vault dl (ts ++ r1))
      ≠ pathInVault vault (downloadDest vault dl (ts ++ r2)) := by
  have htsne : ts.data ≠ [] := fun h => hts (String.ext h)
  have htslen : 1 ≤ ts.data.length := by
    cases hd : ts.data with
    | nil => exact absurd hd htsne
    | cons c cs => simp
  have hn1 : ts ++ r1 ≠ "" := by
    intro h0
    have hd := congrArg String.data h0
    rw [strData_append] at hd
    exact htsne (List.append_eq_nil.mp (by simpa using hd)).1
  have hn2 : ts ++ r2 ≠ "" := by
    intro h0
    have hd := congrArg String.data h0
    rw [strData_append] at hd
    exact htsne (List.append_eq_nil.mp (by simpa using hd)).1
  obtain ⟨B, hB, hdest⟩ := downloadDest_decomp vault dl
  have hk : strLen vault + 1 ≤ (B ++ ts.data).length := by
    rcases hB with hB | ⟨hv, hBnil⟩
    · simp only [List.length_append]
      omega
    · subst hBnil
      subst hv
      simpa [strLen] using htslen
  intro he
  have hd := congrArg String.data he
  have hpiv : ∀ d : String, (pathInVault vault d).data
      = (d.data.drop (strLen vault + 1)).map (fun c => if c = '\\' then '/' else c) :=
    fun d => rfl
  rw [hpiv, hpiv, hdest (ts ++ r1) hn1, hdest (ts ++ r2) hn2] at hd
  rw [strData_append, strData_append, ← List.append_assoc, ← List.append_assoc] at hd
  rw [List.drop_append_of_le_length hk, List.drop_append_of_le_length hk] at hd
  rw [List.map_append, List.map_append] at hd
  have hsuf := List.append_cancel_left hd
  exact hne (String.ext (rb_inj_on_slashfree r1.data r2.data h1 h2 hsuf))

theorem getFileByPath_eq (v : List String) (p : String) (h : TFileH)
    (hg : getFileByPath v p = some h) : h = ⟨p⟩ := by
  unfold getFileByPath at hg
  split at hg
  · exact (Option.some.inj hg).symm
  · exact absurd hg (by simp)

/-- C9 counterexample: the remote paths `a/b` and `a-b` are distinct, yet in
the same second they produce the same local filename, because replacing path
separators by hyphens is not injective — refuting the claim that distinct
remote relative paths always yield distinct filenames. -/
theorem C9_counterexample :
    ("a/b" : String) ≠ "a-b"
    ∧ localFileName "2025-01-01-00-00-00-" (some "a/b")
        = localFileName "2025-01-01-00-00-00-" (some "a-b") := by
  constructor
  · decide
  · rfl

/-- C9 (amended): for two file events materialized with the same
second-resolution timestamp prefix, if the remote relative paths remain
distinct after replacing each path separator `/` by `-`, then the generated
local filenames are distinct and the two resolved vault handles are
distinct. -/
theorem C9_distinct_materialization :
    ∀ (ts p1 p2 vault dl : String) (v : List String) (h1 h2 : TFileH),
      ts ≠ "" → replaceSlashes p1 ≠ replaceSlashes p2 →
      (localFileName ts (some p1) ≠ localFileName ts (some p2)
       ∧ (getFileByPath v (pathInVault vault
              (downloadDest vault dl (localFileName ts (some p1)))) = some h1 →
          getFileByPath v (pathInVault vault
              (downloadDest vault dl (localFileName ts (some p2)))) = some h2 →
          h1 ≠ h2)) := by
  intro ts p1 p2 vault dl v h1 h2 hts hrs
  refine ⟨append_ne_of_ne ts _ _ hrs, ?_⟩
  intro hg1 hg2
  have hpne := pathInVault_ne vault dl ts (replaceSlashes p1) (replaceSlashes p2) hts
      (replaceSlashes_slashfree p1) (replaceSlashes_slashfree p2) hrs
  have e1 := getFileByPath_eq v _ h1 hg1
  have e2 := getFileByPath_eq v _ h2 hg2
  rw [e1, e2]
  intro hmk
  injection hmk with hp
  exact hpne hp

/-- C9 witness: with a nonempty timestamp prefix, the remote paths `a/b` and
`x` have distinct separator-replaced forms, hence distinct filenames. -/
theorem C9_witness :
    localFileName "2025-01-01-00-00-00-" (some "a/b")
      ≠ localFileName "2025-01-01-00-00-00-" (some "x") :=
  (C9_distinct_materialization "2025-01-01-00-00-00-" "a/b" "x" "v" "d" [] ⟨"p"⟩ ⟨"q"⟩
      (by decide) (by decide)).1

/-- C10: a command message consisting of only the leading marker extracts the
empty command name, which is falsy, so the dispatcher returns before any
lookup: zero handlers are invoked and zero replies sent, even though
`addCommandHandler` accepts the empty string as a key and appends to its
chain like any other key. -/
theorem C10_bare_marker_noop :
    (∀ (ad : Adapter) (chat t : String),
        chat = ad.chat_id → strDrop t 1 = "" →
        dispatchCommand ad chat (some t) = emptyTrace)
    ∧ (∀ (r : List (String × List (GEntry Unit))) (e : GEntry Unit),
        regGet (regAdd r "" e) "" = some ((regGet r "").getD [] ++ [e])) := by
  constructor
  · intro ad chat t hchat hdrop
    subst hchat
    simp [dispatchCommand, hdrop]
  · intro r e
    exact regGet_regAdd_self r "" e

/-- C10 witness: the bare marker `/` is a no-op even though the sample
adapter has a chain registered under the empty-string command key. -/
theorem C10_witness :
    dispatchCommand sampleCmdAdapter "42" (some "/") = emptyTrace :=
  C10_bare_marker_noop.1 sampleCmdAdapter "42" "/" rfl rfl
